import Mathlib

/-!
Shallow embedding of the dokploy-logs-mcp server (src/index.ts and
src/ssh.ts): the input sanitizers, the SSH execution primitive, the
per-tool command dispatcher, and the JSON summarisation step of
inspect-container.

The remote side of an SSH call is modelled as an oracle mapping each
issued call (command, host, timeout) to a behaviour: normal termination
with raw output streams, a fired timeout (the internal timer won the
race and the process was killed), or a transport failure.  Tool
arguments arrive over the protocol as untyped JSON; the advertised
schema is not enforced at runtime, so every argument value is modelled
by the text it contributes when interpolated into a template string.
-/

namespace Dokploy

/-- Characters admitted by the identifier sanitizer:
the class a-z, A-Z, 0-9 and underscore, dash, dot, colon. -/
def nameOkChar (c : Char) : Bool :=
  ( 'a' ≤ c && c ≤ 'z') || ( 'A' ≤ c && c ≤ 'Z') || ( '0' ≤ c && c ≤ '9') ||
  c == '_' || c == '-' || c == '.' || c == ':'

/-- index.ts sanitizeName: delete every character outside the allowed class;
if anything was deleted the input is rejected, otherwise it is returned. -/
def sanitizeName (input : String) : Except String String :=
  let sanitized := String.mk (input.toList.filter nameOkChar)
  if sanitized == input then Except.ok sanitized
  else Except.error ("Invalid characters in input: " ++ input)

/-- Unit letters accepted after the digit run of a relative timestamp. -/
def unitChar (c : Char) : Bool :=
  c == 's' || c == 'm' || c == 'h' || c == 'd'

/-- Matcher for the tail of the first regex alternative: zero or more
digits followed by a single unit letter ending the string. -/
def digitsThenUnit : List Char → Bool
  | [] => false
  | [u] => unitChar u
  | c :: cs => c.isDigit && digitsThenUnit cs

/-- First alternative of the timestamp regex: one or more digits then a
unit letter, anchored at both ends. -/
def reDuration : List Char → Bool
  | [] => false
  | c :: cs => c.isDigit && digitsThenUnit cs

/-- Characters admitted in the optional time-of-day part: digits and colon. -/
def timeOkChar (c : Char) : Bool :=
  c.isDigit || c == ':'

/-- Second alternative of the timestamp regex: four digits, dash, two
digits, dash, two digits, optionally a T followed by one or more
digits or colons, anchored at both ends. -/
def reDate : List Char → Bool
  | a :: b :: c :: d :: e :: f :: g :: h :: i :: j :: rest =>
    a.isDigit && b.isDigit && c.isDigit && d.isDigit && e == '-' &&
    f.isDigit && g.isDigit && h == '-' && i.isDigit && j.isDigit &&
    (match rest with
     | [] => true
     | t :: ts => t == 'T' && !ts.isEmpty && ts.all timeOkChar)
  | _ => false

/-- index.ts sanitizeTimestamp: accept the input unchanged when it matches
the regex with the two alternatives above, reject it otherwise. -/
def sanitizeTimestamp (input : String) : Except String String :=
  if reDuration input.toList || reDate input.toList then Except.ok input
  else Except.error ("Invalid timestamp format: " ++ input)

/-- Code points of the shell metacharacters stripped from grep patterns:
semicolon, ampersand, pipe, backtick, dollar, both parentheses, both
braces, both square brackets, less-than, greater-than, backslash,
exclamation mark, double quote, single quote. -/
def shellMetaCodes : List Nat :=
  [0x3b, 0x26, 0x7c, 0x60, 0x24, 0x28, 0x29, 0x7b, 0x7d,
   0x5b, 0x5d, 0x3c, 0x3e, 0x5c, 0x21, 0x22, 0x27]

/-- Test for membership in the stripped metacharacter set. -/
def isShellMeta (c : Char) : Bool :=
  shellMetaCodes.contains c.toNat

/-- index.ts sanitizeGrepPattern: delete every shell metacharacter,
keep all other characters; never rejects. -/
def sanitizeGrepPattern (input : String) : String :=
  String.mk (input.toList.filter (fun c => !isShellMeta c))

/-- One SSH invocation as issued by sshExec: the remote command line,
the host alias, and the effective timeout in milliseconds. -/
structure ExecCall where
  command : String
  host : String
  timeoutMs : Nat
deriving DecidableEq, Repr

/-- Behaviour of the remote/transport side for one issued call:
normal termination with raw (untrimmed) streams and exit status, a
fired execution timer (the process was killed before terminating), or
a transport failure wrapped by the catch-all in sshExec. -/
inductive ExecBehavior where
  | done (stdout stderr : String) (exitCode : Int)
  | timedOut
  | failed (msg : String)

/-- Oracle describing the remote world during one tool call. -/
def Remote : Type := ExecCall → ExecBehavior

/-- ssh.ts SSHResult: trimmed output streams and the exit status. -/
structure SSHResult where
  stdout : String
  stderr : String
  exitCode : Int
deriving DecidableEq, Repr

/-- Whitespace stripped by the trim applied to the captured streams. -/
def isWsChar (c : Char) : Bool :=
  c == ' ' || c == '\t' || c == '\n' || c == '\r'

/-- JS String.prototype.trim on the character list: drop leading and
trailing whitespace. -/
def trimChars (cs : List Char) : List Char :=
  ((cs.dropWhile isWsChar).reverse.dropWhile isWsChar).reverse

/-- JS String.prototype.trim. -/
def jsTrim (s : String) : String := String.mk (trimChars s.toList)

/-- ssh.ts sshExec: apply the default 30000 ms timeout, issue the call,
trim both streams on normal termination, and turn a fired timer or a
transport failure into a thrown error (modelled as Except.error). -/
def sshExec (remote : Remote) (command host : String) (timeoutMs : Option Nat) :
    Except String SSHResult :=
  let t := timeoutMs.getD 30000
  match remote ⟨command, host, t⟩ with
  | .done out err code => Except.ok ⟨jsTrim out, jsTrim err, code⟩
  | .timedOut => Except.error ("SSH command timed out after " ++ toString t ++ "ms")
  | .failed e => Except.error ("SSH execution failed: " ++ e)

/-- The single-quote character, kept out of string literals. -/
def chApos : Char := Char.ofNat 39

/-- The command run by testConnection: echo with a single-quoted ok. -/
def echoOkCmd : String := "echo " ++ String.mk [chApos, 'o', 'k', chApos]

/-- ssh.ts testConnection: run the echo probe with a 10000 ms timeout and
report true exactly when the exit status is 0 and the trimmed stdout is
the literal ok; any thrown error yields false. -/
def testConnection (remote : Remote) (host : String) : Bool :=
  match sshExec remote echoOkCmd host (some 10000) with
  | .ok r => r.exitCode == 0 && r.stdout == "ok"
  | .error _ => false

/-- JSON values as produced by JSON.parse.  Numbers are kept as their
source lexeme: the claims never depend on double re-canonicalisation,
which is the only floating-point behaviour in the repository. -/
inductive Json where
  | jnull
  | jbool (b : Bool)
  | jnum (lexeme : String)
  | jstr (s : String)
  | jarr (elems : List Json)
  | jobj (fields : List (String × Json))
deriving Repr

/-- The double-quote character. -/
def chQuote : Char := Char.ofNat 34

/-- The backslash character. -/
def chBackslash : Char := Char.ofNat 92

/-- The opening curly brace character. -/
def chLBrace : Char := Char.ofNat 0x7b

/-- The closing curly brace character. -/
def chRBrace : Char := Char.ofNat 0x7d

/-- JSON whitespace: space, tab, line feed, carriage return. -/
def jsonWs (c : Char) : Bool :=
  c == ' ' || c == '\t' || c == '\n' || c == '\r'

/-- Drop leading JSON whitespace. -/
def skipWs : List Char → List Char
  | c :: cs => if jsonWs c then skipWs cs else c :: cs
  | [] => []

/-- Value of one hexadecimal digit, or none. -/
def hexVal (c : Char) : Option Nat :=
  if c.isDigit then some (c.toNat - 48)
  else if 'a' ≤ c && c ≤ 'f' then some (c.toNat - 87)
  else if 'A' ≤ c && c ≤ 'F' then some (c.toNat - 55)
  else none

/-- Combine four hex digits into a code unit value. -/
def hex4 (a b c d : Char) : Option Nat :=
  match hexVal a, hexVal b, hexVal c, hexVal d with
  | some x, some y, some z, some w => some (((x * 16 + y) * 16 + z) * 16 + w)
  | _, _, _, _ => none

/-- Translate a single-letter string escape to its character. -/
def escapeChar (c : Char) : Option Char :=
  if c == chQuote then some chQuote
  else if c == chBackslash then some chBackslash
  else if c == '/' then some '/'
  else if c == 'b' then some (Char.ofNat 8)
  else if c == 'f' then some (Char.ofNat 12)
  else if c == 'n' then some '\n'
  else if c == 'r' then some '\r'
  else if c == 't' then some '\t'
  else none

/-- Parse the body of a JSON string after the opening quote, returning
the decoded characters and the input after the closing quote.  A high
and low UTF-16 surrogate escape pair is combined into one scalar; a
lone surrogate (not a Unicode scalar, unrepresentable in Char) falls
back to Char.ofNat, a corner no claim depends on.  Raw control
characters are rejected, as JSON.parse does. -/
def parseJStr (fuel : Nat) (cs : List Char) : Option (List Char × List Char) :=
  match fuel with
  | 0 => none
  | fuel + 1 =>
    match cs with
    | [] => none
    | c :: rest =>
      if c == chQuote then some ([], rest)
      else if c == chBackslash then
        match rest with
        | [] => none
        | e :: rest2 =>
          if e == 'u' then
            match rest2 with
            | a :: b :: cc :: d :: rest3 =>
              match hex4 a b cc d with
              | none => none
              | some hi =>
                if 0xd800 ≤ hi && hi ≤ 0xdbff then
                  match rest3 with
                  | bs :: u :: a2 :: b2 :: c2 :: d2 :: rest4 =>
                    if bs == chBackslash && u == 'u' then
                      match hex4 a2 b2 c2 d2 with
                      | some lo =>
                        if 0xdc00 ≤ lo && lo ≤ 0xdfff then
                          (parseJStr fuel rest4).map (fun p =>
                            (Char.ofNat (0x10000 + (hi - 0xd800) * 0x400 + (lo - 0xdc00)) :: p.1, p.2))
                        else
                          (parseJStr fuel rest3).map (fun p => (Char.ofNat hi :: p.1, p.2))
                      | none =>
                        (parseJStr fuel rest3).map (fun p => (Char.ofNat hi :: p.1, p.2))
                    else
                      (parseJStr fuel rest3).map (fun p => (Char.ofNat hi :: p.1, p.2))
                  | _ =>
                    (parseJStr fuel rest3).map (fun p => (Char.ofNat hi :: p.1, p.2))
                else
                  (parseJStr fuel rest3).map (fun p => (Char.ofNat hi :: p.1, p.2))
            | _ => none
          else
            match escapeChar e with
            | none => none
            | some ch => (parseJStr fuel rest2).map (fun p => (ch :: p.1, p.2))
      else if c.toNat < 32 then none
      else (parseJStr fuel rest).map (fun p => (c :: p.1, p.2))

/-- Exponent part of a number lexeme: optional sign then one or more digits. -/
def parseNumExp (lex : List Char) (cs : List Char) : Option (List Char × List Char) :=
  match cs with
  | e :: rest =>
    if e == 'e' || e == 'E' then
      let (sign, rest2) :=
        match rest with
        | s :: r2 => if s == '+' || s == '-' then ([s], r2) else (([] : List Char), rest)
        | [] => ([], rest)
      let ds := rest2.takeWhile Char.isDigit
      if ds.isEmpty then none
      else some (lex ++ e :: sign ++ ds, rest2.dropWhile Char.isDigit)
    else some (lex, cs)
  | [] => some (lex, cs)

/-- Fraction part of a number lexeme: optional dot then one or more digits. -/
def parseNumFrac (lex : List Char) (cs : List Char) : Option (List Char × List Char) :=
  match cs with
  | d :: rest =>
    if d == '.' then
      let ds := rest.takeWhile Char.isDigit
      if ds.isEmpty then none
      else parseNumExp (lex ++ d :: ds) (rest.dropWhile Char.isDigit)
    else parseNumExp lex cs
  | [] => parseNumExp lex cs

/-- Parse a JSON number lexeme following the strict JSON grammar:
optional minus, then 0 or a nonzero-led digit run, then optional
fraction and exponent. -/
def parseNum (cs : List Char) : Option (List Char × List Char) :=
  let (neg, cs1) :=
    match cs with
    | c :: r => if c == '-' then ([c], r) else (([] : List Char), cs)
    | [] => ([], cs)
  match cs1 with
  | [] => none
  | c :: r =>
    if c == '0' then parseNumFrac (neg ++ [c]) r
    else if c.isDigit then
      parseNumFrac (neg ++ c :: r.takeWhile Char.isDigit) (r.dropWhile Char.isDigit)
    else none

/-- Insert a parsed object member: a duplicate key overwrites the value
in place, as JS property assignment during JSON.parse does. -/
def addField (fields : List (String × Json)) (k : String) (v : Json) :
    List (String × Json) :=
  match fields with
  | [] => [(k, v)]
  | (k0, v0) :: rest =>
    if k0 == k then (k0, v) :: rest
    else (k0, v0) :: addField rest k v

mutual

/-- Parse one JSON value at the head of the input (leading whitespace
allowed), returning the value and the remaining input. -/
def parseVal (fuel : Nat) (cs : List Char) : Option (Json × List Char) :=
  match fuel with
  | 0 => none
  | fuel + 1 =>
    match skipWs cs with
    | [] => none
    | c :: rest =>
      if c == chQuote then
        (parseJStr (rest.length + 1) rest).map (fun p => (.jstr (String.mk p.1), p.2))
      else if c == '[' then
        match skipWs rest with
        | ']' :: rest2 => some (.jarr [], rest2)
        | other => (parseElems fuel other).map (fun p => (.jarr p.1, p.2))
      else if c == chLBrace then
        match skipWs rest with
        | r :: rest2 =>
          if r == chRBrace then some (.jobj [], rest2)
          else (parseMembers fuel [] (r :: rest2)).map (fun p => (.jobj p.1, p.2))
        | [] => none
      else if c == 't' then
        match rest with
        | 'r' :: 'u' :: 'e' :: rest2 => some (.jbool true, rest2)
        | _ => none
      else if c == 'f' then
        match rest with
        | 'a' :: 'l' :: 's' :: 'e' :: rest2 => some (.jbool false, rest2)
        | _ => none
      else if c == 'n' then
        match rest with
        | 'u' :: 'l' :: 'l' :: rest2 => some (.jnull, rest2)
        | _ => none
      else
        (parseNum (c :: rest)).map (fun p => (.jnum (String.mk p.1), p.2))

/-- Parse one or more comma-separated array elements and the closing
bracket. -/
def parseElems (fuel : Nat) (cs : List Char) : Option (List Json × List Char) :=
  match fuel with
  | 0 => none
  | fuel + 1 =>
    match parseVal fuel cs with
    | none => none
    | some (v, rest) =>
      match skipWs rest with
      | ',' :: rest2 => (parseElems fuel rest2).map (fun p => (v :: p.1, p.2))
      | ']' :: rest2 => some ([v], rest2)
      | _ => none

/-- Parse one or more comma-separated object members and the closing
brace, collapsing duplicate keys. -/
def parseMembers (fuel : Nat) (acc : List (String × Json)) (cs : List Char) :
    Option (List (String × Json) × List Char) :=
  match fuel with
  | 0 => none
  | fuel + 1 =>
    match skipWs cs with
    | q :: rest =>
      if q == chQuote then
        match parseJStr (rest.length + 1) rest with
        | none => none
        | some (key, rest2) =>
          match skipWs rest2 with
          | ':' :: rest3 =>
            match parseVal fuel rest3 with
            | none => none
            | some (v, rest4) =>
              let acc2 := addField acc (String.mk key) v
              match skipWs rest4 with
              | ',' :: rest5 => parseMembers fuel acc2 rest5
              | r :: rest5 =>
                if r == chRBrace then some (acc2, rest5) else none
              | [] => none
          | _ => none
      else none
    | [] => none

end

/-- JSON.parse: parse one value and require only whitespace after it.
The fuel exceeds the number of recursive descents possible for the
input, so it is never exhausted on an input JSON.parse accepts. -/
def jsonParse (s : String) : Option Json :=
  let cs := s.toList
  match parseVal (4 * cs.length + 8) cs with
  | some (v, rest) => if (skipWs rest).isEmpty then some v else none
  | none => none

/-- A run of n space characters, used for stringify indentation. -/
def spaces (n : Nat) : String := String.mk (List.replicate n ' ')

/-- Lowercase hexadecimal digit. -/
def hexDigit (n : Nat) : Char :=
  if n < 10 then Char.ofNat (48 + n) else Char.ofNat (87 + n)

/-- JSON.stringify escaping of one character inside a string literal. -/
def escC (c : Char) : List Char :=
  if c == chQuote then [chBackslash, chQuote]
  else if c == chBackslash then [chBackslash, chBackslash]
  else if c.toNat == 8 then [chBackslash, 'b']
  else if c == '\t' then [chBackslash, 't']
  else if c == '\n' then [chBackslash, 'n']
  else if c.toNat == 12 then [chBackslash, 'f']
  else if c == '\r' then [chBackslash, 'r']
  else if c.toNat < 32 then
    [chBackslash, 'u', '0', '0', hexDigit (c.toNat / 16), hexDigit (c.toNat % 16)]
  else [c]

/-- JSON.stringify rendering of a string: quoted and escaped. -/
def quoteJStr (s : String) : String :=
  String.mk (chQuote :: s.toList.flatMap escC ++ [chQuote])

mutual

/-- JSON.stringify(v, null, 2) at nesting depth d: two-space indent,
newline separated members, empty containers rendered inline. -/
def stringifyVal (d : Nat) (v : Json) : String :=
  match v with
  | .jnull => "null"
  | .jbool true => "true"
  | .jbool false => "false"
  | .jnum lx => lx
  | .jstr s => quoteJStr s
  | .jarr [] => "[]"
  | .jarr (x :: xs) =>
    "[\n" ++ stringifyElems (d + 1) x xs ++ "\n" ++ spaces (2 * d) ++ "]"
  | .jobj [] => String.mk [chLBrace, chRBrace]
  | .jobj (f :: fs) =>
    String.mk [chLBrace] ++ "\n" ++ stringifyFields (d + 1) f fs ++ "\n" ++
      spaces (2 * d) ++ String.mk [chRBrace]
termination_by sizeOf v

/-- Comma-and-newline separated array elements, each indented. -/
def stringifyElems (d : Nat) (x : Json) (xs : List Json) : String :=
  match xs with
  | [] => spaces (2 * d) ++ stringifyVal d x
  | y :: ys => spaces (2 * d) ++ stringifyVal d x ++ ",\n" ++ stringifyElems d y ys
termination_by sizeOf x + sizeOf xs

/-- Comma-and-newline separated object members, each indented, with the
colon-space key separator used when an indent is given. -/
def stringifyFields (d : Nat) (f : String × Json) (fs : List (String × Json)) : String :=
  match f, fs with
  | (k, v), [] => spaces (2 * d) ++ quoteJStr k ++ ": " ++ stringifyVal d v
  | (k, v), g :: gs =>
    spaces (2 * d) ++ quoteJStr k ++ ": " ++ stringifyVal d v ++ ",\n" ++
      stringifyFields d g gs
termination_by sizeOf f + sizeOf fs

end

/-- JS property read v.k on a parsed JSON value that is not null:
an object yields its property when present, every other value (and an
absent property) yields undefined, modelled as none. -/
def jsGet (v : Json) (k : String) : Option Json :=
  match v with
  | .jobj fields =>
    match fields.find? (fun p => p.1 == k) with
    | some p => some p.2
    | none => none
  | _ => none

/-- JS optional-chained read v.k1?.k2: undefined when v.k1 is undefined
or null, otherwise a plain property read on it. -/
def jsGetVia (v : Json) (k1 k2 : String) : Option Json :=
  match jsGet v k1 with
  | none => none
  | some .jnull => none
  | some w => jsGet w k2

/-- The seven summary entries built by the inspect-container case, as
(key, possibly-undefined value) in source order. -/
def summaryEntries (data : Json) : List (String × Option Json) :=
  [("Name", jsGet data "Name"),
   ("State", jsGet data "State"),
   ("Image", jsGetVia data "Config" "Image"),
   ("Created", jsGet data "Created"),
   ("Ports", jsGetVia data "NetworkSettings" "Ports"),
   ("Env", jsGetVia data "Config" "Env"),
   ("Mounts", jsGet data "Mounts")]

/-- The summary object for inspect-container: none when building it
throws (reading a property of null), otherwise the entries whose value
is defined, in order — JSON.stringify omits undefined-valued keys. -/
def summaryFields (data : Json) : Option (List (String × Json)) :=
  match data with
  | .jnull => none
  | _ => some ((summaryEntries data).filterMap (fun p => p.2.map (fun v => (p.1, v))))

/-- The inspect-container post-processing of trimmed stdout: parse as
JSON and stringify the reduced summary; fall back to the raw text when
parsing or summary construction throws. -/
def renderInspect (stdout : String) : String :=
  match jsonParse stdout with
  | none => stdout
  | some data =>
    match summaryFields data with
    | none => stdout
    | some fields => stringifyVal 0 (.jobj fields)

/-- Tool-call arguments.  Values arrive as untyped JSON over the
protocol; each is modelled by the text it contributes when interpolated
(none is an absent argument).  The two boolean-tested arguments keep
their JS truthiness shape: all is compared by truthiness, timestamps by
being exactly false. -/
structure Args where
  host : Option String
  all : Option Bool
  filter : Option String
  container : Option String
  tail : Option String
  timestamps : Option Bool
  since : Option String
  project : Option String
  service : Option String
deriving DecidableEq, Repr

/-- A call with every argument absent. -/
def noArgs : Args := ⟨none, none, none, none, none, none, none, none, none⟩

/-- JS truthiness of an optional string: present and nonempty. -/
def truthyStr (o : Option String) : Bool :=
  match o with
  | some s => s != ""
  | none => false

/-- JS truthiness of the optional boolean all argument. -/
def truthyBool (o : Option Bool) : Bool :=
  o == some true

/-- Outcome of one protocol call: a successful Tool Result, a Tool
Result with the error flag set (the catch block), or an error that
escaped the handler to the protocol layer. -/
inductive Outcome where
  | success (text : String)
  | errorResult (text : String)
  | uncaught (msg : String)
deriving DecidableEq, Repr

/-- The docker ps format string from the list-containers case. -/
def psFormat : String :=
  "--format \"table " ++ String.mk [chLBrace, chLBrace] ++ ".Names" ++
    String.mk [chRBrace, chRBrace] ++ "\\t" ++ String.mk [chLBrace, chLBrace] ++
    ".Status" ++ String.mk [chRBrace, chRBrace] ++ "\\t" ++
    String.mk [chLBrace, chLBrace] ++ ".Image" ++ String.mk [chRBrace, chRBrace] ++ "\""

/-- The docker stats format string from the get-container-stats case. -/
def statsFormat : String :=
  "--format \"table " ++ String.mk [chLBrace, chLBrace] ++ ".Name" ++
    String.mk [chRBrace, chRBrace] ++ "\\t" ++ String.mk [chLBrace, chLBrace] ++
    ".CPUPerc" ++ String.mk [chRBrace, chRBrace] ++ "\\t" ++
    String.mk [chLBrace, chLBrace] ++ ".MemUsage" ++ String.mk [chRBrace, chRBrace] ++
    "\\t" ++ String.mk [chLBrace, chLBrace] ++ ".NetIO" ++
    String.mk [chRBrace, chRBrace] ++ "\""

/-- The docker inspect format argument, single-quoted json dot. -/
def inspectFormat : String :=
  String.mk [chApos, chLBrace, chLBrace] ++ "json ." ++
    String.mk [chRBrace, chRBrace, chApos]

/-- The test-connection case of the switch. -/
def toolTestConnection (remote : Remote) (host : String) :
    Except String String × List ExecCall :=
  (Except.ok
    (if testConnection remote host then
      "✓ Successfully connected to " ++ host
     else "✗ Failed to connect to " ++ host ++ ". Check your SSH config."),
   [⟨echoOkCmd, host, 10000⟩])

/-- The list-containers case of the switch. -/
def toolListContainers (remote : Remote) (args : Args) (host : String) :
    Except String String × List ExecCall :=
  let showAll := if truthyBool args.all then "-a" else ""
  let base := "docker ps " ++ showAll ++ " " ++ psFormat
  let command :=
    if truthyStr args.filter then
      base ++ " | grep -E \"NAMES|" ++ sanitizeGrepPattern (args.filter.getD "") ++ "\""
    else base
  let call : ExecCall := ⟨command, host, 30000⟩
  match sshExec remote command host none with
  | .error e => (Except.error e, [call])
  | .ok r =>
    if r.exitCode != 0 then
      (Except.error (if r.stderr != "" then r.stderr else "Failed to list containers"),
       [call])
    else (Except.ok r.stdout, [call])

/-- The since fragment of the get-container-logs command: empty when
the argument is falsy, otherwise the flag with the sanitized timestamp
(or the sanitizer error, thrown while the fragment is built). -/
def sinceArg (args : Args) : Except String String :=
  if truthyStr args.since then
    match sanitizeTimestamp (args.since.getD "") with
    | .error e => Except.error e
    | .ok t => Except.ok ("--since " ++ t)
  else Except.ok ""

/-- The get-container-logs case of the switch. -/
def toolLogs (remote : Remote) (args : Args) (host : String) :
    Except String String × List ExecCall :=
  if !truthyStr args.container then
    (Except.error "Container name is required", [])
  else
    match sanitizeName (args.container.getD "") with
    | .error e => (Except.error e, [])
    | .ok safeContainer =>
      let tail := args.tail.getD "100"
      let timestamps := if args.timestamps != some false then "-t" else ""
      match sinceArg args with
      | .error e => (Except.error e, [])
      | .ok since =>
        let command := "docker logs " ++ safeContainer ++ " --tail " ++ tail ++ " " ++
          timestamps ++ " " ++ since ++ " 2>&1"
        let call : ExecCall := ⟨command, host, 60000⟩
        match sshExec remote command host (some 60000) with
        | .error e => (Except.error e, [call])
        | .ok r =>
          if r.exitCode != 0 && r.stdout == "" then
            (Except.error
              (if r.stderr != "" then r.stderr
               else if r.stdout != "" then r.stdout
               else "Failed to get container logs"), [call])
          else
            (Except.ok (if r.stdout != "" then r.stdout else r.stderr), [call])

/-- The container fragment of the get-container-stats command: empty
when the argument is falsy, otherwise its sanitized value. -/
def statsContainer (args : Args) : Except String String :=
  if truthyStr args.container then sanitizeName (args.container.getD "")
  else Except.ok ""

/-- The get-container-stats case of the switch. -/
def toolStats (remote : Remote) (args : Args) (host : String) :
    Except String String × List ExecCall :=
  match statsContainer args with
  | .error e => (Except.error e, [])
  | .ok container =>
    let command := "docker stats --no-stream " ++ statsFormat ++ " " ++ container
    let call : ExecCall := ⟨command, host, 30000⟩
    match sshExec remote command host none with
    | .error e => (Except.error e, [call])
    | .ok r =>
      if r.exitCode != 0 then
        (Except.error
          (if r.stderr != "" then r.stderr else "Failed to get container stats"),
         [call])
      else (Except.ok r.stdout, [call])

/-- The inspect-container case of the switch. -/
def toolInspect (remote : Remote) (args : Args) (host : String) :
    Except String String × List ExecCall :=
  if !truthyStr args.container then
    (Except.error "Container name is required", [])
  else
    match sanitizeName (args.container.getD "") with
    | .error e => (Except.error e, [])
    | .ok safeContainer =>
      let command := "docker inspect " ++ safeContainer ++ " --format " ++ inspectFormat
      let call : ExecCall := ⟨command, host, 30000⟩
      match sshExec remote command host none with
      | .error e => (Except.error e, [call])
      | .ok r =>
        if r.exitCode != 0 then
          (Except.error
            (if r.stderr != "" then r.stderr else "Failed to inspect container"),
           [call])
        else (Except.ok (renderInspect r.stdout), [call])

/-- The service fragment of the docker-compose-logs command: empty when
the argument is falsy, otherwise its sanitized value. -/
def serviceArg (args : Args) : Except String String :=
  if truthyStr args.service then sanitizeName (args.service.getD "")
  else Except.ok ""

/-- The docker-compose-logs case of the switch. -/
def toolCompose (remote : Remote) (args : Args) (host : String) :
    Except String String × List ExecCall :=
  if !truthyStr args.project then
    (Except.error "Project name is required", [])
  else
    match sanitizeName (args.project.getD "") with
    | .error e => (Except.error e, [])
    | .ok safeProject =>
      match serviceArg args with
      | .error e => (Except.error e, [])
      | .ok safeService =>
        let tail := args.tail.getD "100"
        let command := "docker compose -p " ++ safeProject ++ " logs --tail " ++ tail ++
          " " ++ safeService ++ " 2>&1"
        let call : ExecCall := ⟨command, host, 60000⟩
        match sshExec remote command host (some 60000) with
        | .error e => (Except.error e, [call])
        | .ok r =>
          if r.exitCode != 0 && r.stdout == "" then
            (Except.error
              (if r.stderr != "" then r.stderr
               else if r.stdout != "" then r.stdout
               else "Failed to get compose logs"), [call])
          else
            (Except.ok (if r.stdout != "" then r.stdout else r.stderr), [call])

/-- Body of the switch inside the try block: given the already
sanitized host, run one tool.  Returns the thrown-or-returned text
(Except.error is a thrown JS error, caught by the handler) together
with the list of SSH calls issued on the way. -/
def runTool (remote : Remote) (name : String) (args : Args) (host : String) :
    Except String String × List ExecCall :=
  if name == "test-connection" then toolTestConnection remote host
  else if name == "list-containers" then toolListContainers remote args host
  else if name == "get-container-logs" then toolLogs remote args host
  else if name == "get-container-stats" then toolStats remote args host
  else if name == "inspect-container" then toolInspect remote args host
  else if name == "docker-compose-logs" then toolCompose remote args host
  else (Except.error ("Unknown tool: " ++ name), [])

/-- The raw host before sanitization: the host argument when truthy,
otherwise the default from the environment. -/
def resolveRawHost (args : Args) (defaultHost : String) : String :=
  if truthyStr args.host then args.host.getD "" else defaultHost

/-- The CallToolRequest handler: resolve and sanitize the host — this
happens before the try block, so its error escapes — then run the tool
inside try/catch, converting a thrown error into an error-flagged Tool
Result prefixed with the word Error. -/
def handleTool (remote : Remote) (name : String) (args : Args) (defaultHost : String) :
    Outcome × List ExecCall :=
  match sanitizeName (resolveRawHost args defaultHost) with
  | .error e => (Outcome.uncaught e, [])
  | .ok host =>
    match runTool remote name args host with
    | (.ok text, calls) => (Outcome.success text, calls)
    | (.error msg, calls) => (Outcome.errorResult ("Error: " ++ msg), calls)

/-! Helper lemmas about the sanitizers and the dispatcher. -/

theorem grep_toList (s : String) :
    (sanitizeGrepPattern s).toList = s.toList.filter (fun c => !isShellMeta c) := rfl

theorem mk_toList (s : String) : String.mk s.toList = s := rfl

theorem sanitizeName_accepts {s : String} (h : ∀ c ∈ s.toList, nameOkChar c = true) :
    sanitizeName s = Except.ok s := by
  unfold sanitizeName
  rw [List.filter_eq_self.mpr h, mk_toList]
  simp

theorem sanitizeName_eq (s : String) :
    sanitizeName s =
      if String.mk (s.toList.filter nameOkChar) == s then
        Except.ok (String.mk (s.toList.filter nameOkChar))
      else Except.error ("Invalid characters in input: " ++ s) := rfl

theorem sanitizeName_rejects {s : String} (h : ∃ c ∈ s.toList, nameOkChar c = false) :
    sanitizeName s = Except.error ("Invalid characters in input: " ++ s) := by
  obtain ⟨c, hc, hcf⟩ := h
  have hlt : (s.toList.filter nameOkChar).length < s.toList.length :=
    List.length_filter_lt_length_iff_exists.mpr ⟨c, hc, by simp [hcf]⟩
  have hne : String.mk (s.toList.filter nameOkChar) ≠ s := by
    intro e
    have h2 : s.toList.filter nameOkChar = s.toList := congrArg String.toList e
    rw [h2] at hlt
    omega
  rw [sanitizeName_eq, beq_eq_false_iff_ne.mpr hne]
  simp

theorem sanitizeName_error_shape {s m : String}
    (h : sanitizeName s = Except.error m) :
    m = "Invalid characters in input: " ++ s := by
  rw [sanitizeName_eq] at h
  split at h
  · exact Except.noConfusion h
  · injection h with h2
    exact h2.symm

theorem bad_char_truthy {s : String} (h : ∃ c ∈ s.toList, nameOkChar c = false) :
    truthyStr (some s) = true := by
  obtain ⟨c, hc, _⟩ := h
  have hne : s.toList ≠ [] := by
    intro e; rw [e] at hc; cases hc
  simp only [truthyStr, bne_iff_ne, ne_eq]
  intro e
  exact hne (by rw [e]; rfl)

theorem runTool_test (remote : Remote) (args : Args) (h : String) :
    runTool remote "test-connection" args h = toolTestConnection remote h := rfl

theorem runTool_list (remote : Remote) (args : Args) (h : String) :
    runTool remote "list-containers" args h = toolListContainers remote args h := rfl

theorem runTool_logs (remote : Remote) (args : Args) (h : String) :
    runTool remote "get-container-logs" args h = toolLogs remote args h := rfl

theorem runTool_stats (remote : Remote) (args : Args) (h : String) :
    runTool remote "get-container-stats" args h = toolStats remote args h := rfl

theorem runTool_inspect (remote : Remote) (args : Args) (h : String) :
    runTool remote "inspect-container" args h = toolInspect remote args h := rfl

theorem runTool_compose (remote : Remote) (args : Args) (h : String) :
    runTool remote "docker-compose-logs" args h = toolCompose remote args h := rfl

/-- An identifier contains a character outside the sanitizer class. -/
def hasDisallowedChar (s : String) : Prop :=
  ∃ c ∈ s.toList, nameOkChar c = false

/-- The dispatcher surfaced an identifier-sanitization error for this
call: either it escaped before the try block (host) or it was caught
and turned into an error-flagged result. -/
def invalidRaised (o : Outcome) : Prop :=
  (∃ s, o = Outcome.uncaught ("Invalid characters in input: " ++ s)) ∨
  (∃ s, o = Outcome.errorResult ("Error: Invalid characters in input: " ++ s))

/-- C7: for every grep-filter input, sanitization removes exactly the
occurrences of the shell metacharacters and leaves every other
character unchanged and in order (it is a sublist of the input with no
metacharacter left, preserving the multiplicity of every
non-metacharacter and maximal among metacharacter-free sublists), and
it never raises an error (it is a total function into String). -/
theorem C7_grep_strip (s : String) :
    (sanitizeGrepPattern s).toList.Sublist s.toList ∧
    (∀ c ∈ (sanitizeGrepPattern s).toList, isShellMeta c = false) ∧
    (∀ c : Char, isShellMeta c = false →
      (sanitizeGrepPattern s).toList.count c = s.toList.count c) ∧
    (∀ t : List Char, t.Sublist s.toList → (∀ c ∈ t, isShellMeta c = false) →
      t.Sublist (sanitizeGrepPattern s).toList) := by
  refine ⟨?_, ?_, ?_, ?_⟩
  · rw [grep_toList]; exact List.filter_sublist s.toList
  · intro c hc
    rw [grep_toList] at hc
    have := (List.mem_filter.mp hc).2
    simpa using this
  · intro c hc
    rw [grep_toList]
    exact List.count_filter (by simp [hc])
  · intro t ht hmf
    rw [grep_toList]
    have heq : t.filter (fun c => !isShellMeta c) = t :=
      List.filter_eq_self.mpr (by intro a ha; simp [hmf a ha])
    have h2 := ht.filter (fun c => !isShellMeta c)
    rwa [heq] at h2

/-- C10: the grep-filter sanitizer is idempotent and its output never
contains a stripped shell metacharacter. -/
theorem C10_grep_idempotent (s : String) :
    sanitizeGrepPattern (sanitizeGrepPattern s) = sanitizeGrepPattern s ∧
    ∀ c ∈ (sanitizeGrepPattern s).toList, ¬(isShellMeta c = true) := by
  constructor
  · show String.mk (((String.mk (s.toList.filter _)).toList).filter _) = _
    congr 1
    exact List.filter_eq_self.mpr (fun a ha => (List.mem_filter.mp ha).2)
  · intro c hc
    rw [grep_toList] at hc
    simpa using (List.mem_filter.mp hc).2

theorem sshExec_eq (remote : Remote) (cmd host : String) (t : Option Nat) :
    sshExec remote cmd host t =
      match remote ⟨cmd, host, t.getD 30000⟩ with
      | .done out err code => Except.ok ⟨jsTrim out, jsTrim err, code⟩
      | .timedOut =>
        Except.error ("SSH command timed out after " ++ toString (t.getD 30000) ++ "ms")
      | .failed e => Except.error ("SSH execution failed: " ++ e) := rfl

/-- C5: testConnection returns true exactly when the probe terminated
normally with exit status 0 and trimmed stdout equal to ok; a nonzero
exit, different stdout, a fired timeout, or a transport failure all
yield false (the function is total, so no exception propagates). -/
theorem C5_test_connection (remote : Remote) (host : String) :
    testConnection remote host = true ↔
      ∃ out err code, remote ⟨echoOkCmd, host, 10000⟩ = ExecBehavior.done out err code ∧
        code = 0 ∧ jsTrim out = "ok" := by
  unfold testConnection
  rw [sshExec_eq]
  simp only [Option.getD]
  cases hb : remote ⟨echoOkCmd, host, 10000⟩ with
  | done out err code =>
    show (code == 0 && jsTrim out == "ok") = true ↔ _
    rw [Bool.and_eq_true, beq_iff_eq, beq_iff_eq]
    constructor
    · rintro ⟨h1, h2⟩
      exact ⟨out, err, code, rfl, h1, h2⟩
    · rintro ⟨o, e, c, he, h1, h2⟩
      obtain ⟨rfl, rfl, rfl⟩ := ExecBehavior.done.inj he
      exact ⟨h1, h2⟩
  | timedOut =>
    show (false = true) ↔ _
    constructor
    · intro h; exact absurd h (by simp)
    · rintro ⟨o, e, c, he, _, _⟩
      exact ExecBehavior.noConfusion he
  | failed m =>
    show (false = true) ↔ _
    constructor
    · intro h; exact absurd h (by simp)
    · rintro ⟨o, e, c, he, _, _⟩
      exact ExecBehavior.noConfusion he

theorem handleTool_host_error {remote : Remote} {name : String} {args : Args}
    {dh e : String}
    (hh : sanitizeName (resolveRawHost args dh) = Except.error e) :
    handleTool remote name args dh = (Outcome.uncaught e, []) := by
  unfold handleTool
  rw [hh]

theorem handleTool_host_ok {remote : Remote} {name : String} {args : Args}
    {dh h : String}
    (hh : sanitizeName (resolveRawHost args dh) = Except.ok h) :
    handleTool remote name args dh =
      (match runTool remote name args h with
       | (.ok t, calls) => (Outcome.success t, calls)
       | (.error m, calls) => (Outcome.errorResult ("Error: " ++ m), calls)) := by
  unfold handleTool
  rw [hh]

theorem handleTool_body_error {remote : Remote} {name : String} {args : Args}
    {dh h msg : String}
    (hh : sanitizeName (resolveRawHost args dh) = Except.ok h)
    (hb : runTool remote name args h = (Except.error msg, [])) :
    handleTool remote name args dh = (Outcome.errorResult ("Error: " ++ msg), []) := by
  rw [handleTool_host_ok hh, hb]

theorem errPrefix (s : String) :
    "Error: " ++ ("Invalid characters in input: " ++ s) =
    "Error: Invalid characters in input: " ++ s := by
  rw [← String.append_assoc]
  rfl

theorem toolLogs_bad_container {remote : Remote} {args : Args} {host s : String}
    (hc : args.container = some s) (hbad : hasDisallowedChar s) :
    toolLogs remote args host =
      (Except.error ("Invalid characters in input: " ++ s), []) := by
  unfold toolLogs
  simp [hc, bad_char_truthy hbad, sanitizeName_rejects hbad]

theorem toolInspect_bad_container {remote : Remote} {args : Args} {host s : String}
    (hc : args.container = some s) (hbad : hasDisallowedChar s) :
    toolInspect remote args host =
      (Except.error ("Invalid characters in input: " ++ s), []) := by
  unfold toolInspect
  simp [hc, bad_char_truthy hbad, sanitizeName_rejects hbad]

theorem toolStats_bad_container {remote : Remote} {args : Args} {host s : String}
    (hc : args.container = some s) (hbad : hasDisallowedChar s) :
    toolStats remote args host =
      (Except.error ("Invalid characters in input: " ++ s), []) := by
  unfold toolStats statsContainer
  simp [hc, bad_char_truthy hbad, sanitizeName_rejects hbad]

theorem toolCompose_bad_project {remote : Remote} {args : Args} {host s : String}
    (hp : args.project = some s) (hbad : hasDisallowedChar s) :
    toolCompose remote args host =
      (Except.error ("Invalid characters in input: " ++ s), []) := by
  unfold toolCompose
  simp [hp, bad_char_truthy hbad, sanitizeName_rejects hbad]

theorem toolCompose_no_project {remote : Remote} {args : Args} {host : String}
    (hp : truthyStr args.project = false) :
    toolCompose remote args host = (Except.error "Project name is required", []) := by
  unfold toolCompose
  simp [hp]

theorem toolCompose_bad_service {remote : Remote} {args : Args} {host s : String}
    (hs : args.service = some s) (hbad : hasDisallowedChar s)
    (hp : truthyStr args.project = true) :
    ∃ m, toolCompose remote args host =
      (Except.error ("Invalid characters in input: " ++ m), []) := by
  unfold toolCompose serviceArg
  cases hsan : sanitizeName (args.project.getD "") with
  | error e =>
    have hsh := sanitizeName_error_shape hsan
    subst hsh
    exact ⟨args.project.getD "", by simp [hp, hsan]⟩
  | ok p =>
    refine ⟨s, ?_⟩
    simp [hp, hsan, hs, bad_char_truthy hbad, sanitizeName_rejects hbad]

/-- C2: an identifier argument (container, project, service, host)
containing a character outside the allowed class makes the dispatcher
raise the invalid-characters error for that tool call and the Remote
Executor is never invoked (the issued call list is empty); an
identifier containing only allowed characters is accepted unchanged by
sanitization. -/
theorem C2_identifier_rejection :
    (∀ s : String, hasDisallowedChar s →
      sanitizeName s = Except.error ("Invalid characters in input: " ++ s) ∧
      ∀ (remote : Remote) (args : Args) (dh : String),
        (args.container = some s →
          handleTool remote "get-container-logs" args dh =
            ((handleTool remote "get-container-logs" args dh).1, []) ∧
          invalidRaised (handleTool remote "get-container-logs" args dh).1 ∧
          handleTool remote "inspect-container" args dh =
            ((handleTool remote "inspect-container" args dh).1, []) ∧
          invalidRaised (handleTool remote "inspect-container" args dh).1 ∧
          handleTool remote "get-container-stats" args dh =
            ((handleTool remote "get-container-stats" args dh).1, []) ∧
          invalidRaised (handleTool remote "get-container-stats" args dh).1) ∧
        (args.project = some s →
          handleTool remote "docker-compose-logs" args dh =
            ((handleTool remote "docker-compose-logs" args dh).1, []) ∧
          invalidRaised (handleTool remote "docker-compose-logs" args dh).1) ∧
        (args.service = some s →
          handleTool remote "docker-compose-logs" args dh =
            ((handleTool remote "docker-compose-logs" args dh).1, []) ∧
          (truthyStr args.project = true →
            invalidRaised (handleTool remote "docker-compose-logs" args dh).1)) ∧
        (args.host = some s → ∀ name : String,
          handleTool remote name args dh =
            (Outcome.uncaught ("Invalid characters in input: " ++ s), []))) ∧
    (∀ s : String, (∀ c ∈ s.toList, nameOkChar c = true) →
      sanitizeName s = Except.ok s) := by
  constructor
  · intro s hbad
    refine ⟨sanitizeName_rejects hbad, ?_⟩
    intro remote args dh
    have hinv : ∀ (name : String) (body : Remote → Args → String → _)
        (hrun : ∀ h, runTool remote name args h = body remote args h)
        (hbody : ∀ h, body remote args h =
          (Except.error ("Invalid characters in input: " ++ s), [])),
        handleTool remote name args dh = ((handleTool remote name args dh).1, []) ∧
        invalidRaised (handleTool remote name args dh).1 := by
      intro name body hrun hbody
      cases hh : sanitizeName (resolveRawHost args dh) with
      | error e =>
        rw [handleTool_host_error hh]
        exact ⟨rfl, Or.inl ⟨resolveRawHost args dh, by
          rw [sanitizeName_error_shape hh]⟩⟩
      | ok h =>
        have hb : runTool remote name args h =
            (Except.error ("Invalid characters in input: " ++ s), []) := by
          rw [hrun h, hbody h]
        rw [handleTool_body_error hh hb]
        exact ⟨rfl, Or.inr ⟨s, by rw [errPrefix]⟩⟩
    refine ⟨?_, ?_, ?_, ?_⟩
    · intro hc
      have h1 := hinv "get-container-logs" (fun r a h => toolLogs r a h)
        (fun h => runTool_logs remote args h)
        (fun h => toolLogs_bad_container hc hbad)
      have h2 := hinv "inspect-container" (fun r a h => toolInspect r a h)
        (fun h => runTool_inspect remote args h)
        (fun h => toolInspect_bad_container hc hbad)
      have h3 := hinv "get-container-stats" (fun r a h => toolStats r a h)
        (fun h => runTool_stats remote args h)
        (fun h => toolStats_bad_container hc hbad)
      exact ⟨h1.1, h1.2, h2.1, h2.2, h3.1, h3.2⟩
    · intro hp
      exact hinv "docker-compose-logs" (fun r a h => toolCompose r a h)
        (fun h => runTool_compose remote args h)
        (fun h => toolCompose_bad_project hp hbad)
    · intro hs
      cases hh : sanitizeName (resolveRawHost args dh) with
      | error e =>
        rw [handleTool_host_error hh]
        exact ⟨rfl, fun _ => Or.inl ⟨resolveRawHost args dh, by
          rw [sanitizeName_error_shape hh]⟩⟩
      | ok h =>
        by_cases hp : truthyStr args.project = true
        · obtain ⟨m, hm⟩ := @toolCompose_bad_service remote args h s hs hbad hp
          have hb : runTool remote "docker-compose-logs" args h =
              (Except.error ("Invalid characters in input: " ++ m), []) := by
            rw [runTool_compose, hm]
          rw [handleTool_body_error hh hb]
          exact ⟨rfl, fun _ => Or.inr ⟨m, by rw [errPrefix]⟩⟩
        · have hpf : truthyStr args.project = false := by simpa using hp
          have hb : runTool remote "docker-compose-logs" args h =
              (Except.error "Project name is required", []) := by
            rw [runTool_compose]
            exact toolCompose_no_project hpf
          rw [handleTool_body_error hh hb]
          exact ⟨rfl, fun hpp => absurd hpp hp⟩
    · intro hhost name
      have hraw : resolveRawHost args dh = s := by
        unfold resolveRawHost
        rw [hhost, bad_char_truthy hbad]
        simp
      have hh : sanitizeName (resolveRawHost args dh) =
          Except.error ("Invalid characters in input: " ++ s) := by
        rw [hraw]
        exact sanitizeName_rejects hbad
      exact handleTool_host_error hh
  · intro s h
    exact sanitizeName_accepts h

/-- Witness for C2 at concrete inputs: the identifier with a space and a
semicolon is rejected and triggers no SSH call when used as the
container of get-container-logs, and a well-formed identifier passes
sanitization unchanged. -/
theorem C2_identifier_rejection_witness :
    sanitizeName "bad name;" =
      Except.error ("Invalid characters in input: " ++ "bad name;") ∧
    (handleTool (fun _ => ExecBehavior.done "" "" 0) "get-container-logs"
        { noArgs with container := some "bad name;" } "dokploy").2 = [] ∧
    sanitizeName "web-app_1.2:3" = Except.ok "web-app_1.2:3" := by
  have hbad : hasDisallowedChar "bad name;" := ⟨' ', by decide, by decide⟩
  have h1 := (C2_identifier_rejection.1 "bad name;" hbad)
  have h2 := (h1.2 (fun _ => ExecBehavior.done "" "" 0)
    { noArgs with container := some "bad name;" } "dokploy").1 rfl
  refine ⟨h1.1, ?_, C2_identifier_rejection.2 "web-app_1.2:3" (by decide)⟩
  rw [h2.1]

/-- Spec-side reading of the first timestamp alternative: one or more
digits followed by a single unit letter. -/
def specDuration (s : String) : Prop :=
  ∃ ds u, s.toList = ds ++ [u] ∧ ds ≠ [] ∧
    (∀ c ∈ ds, c.isDigit = true) ∧ unitChar u = true

/-- Spec-side reading of a time-of-day suffix: nonempty, made of digits
and colons. -/
def specTimeOfDay (ts : List Char) : Prop :=
  ts ≠ [] ∧ ∀ c ∈ ts, (c.isDigit = true ∨ c = ':')

/-- Spec-side reading of the second timestamp alternative: a
four-two-two digit date with dashes, optionally followed by T and a
time-of-day. -/
def specDate (s : String) : Prop :=
  ∃ y1 y2 y3 y4 m1 m2 d1 d2 rest,
    s.toList = [y1, y2, y3, y4, '-', m1, m2, '-', d1, d2] ++ rest ∧
    (∀ c ∈ [y1, y2, y3, y4, m1, m2, d1, d2], c.isDigit = true) ∧
    (rest = [] ∨ ∃ ts, rest = 'T' :: ts ∧ specTimeOfDay ts)

theorem digitsThenUnit_iff (cs : List Char) :
    digitsThenUnit cs = true ↔
      ∃ ds u, cs = ds ++ [u] ∧ (∀ c ∈ ds, c.isDigit = true) ∧ unitChar u = true := by
  induction cs with
  | nil =>
    constructor
    · intro h; exact Bool.noConfusion h
    · rintro ⟨ds, u, he, -, -⟩
      exact absurd he.symm (List.append_ne_nil_of_right_ne_nil ds (by simp))
  | cons c cs ih =>
    cases cs with
    | nil =>
      show unitChar c = true ↔ _
      constructor
      · intro h
        exact ⟨[], c, rfl, by simp, h⟩
      · rintro ⟨ds, u, he, hds, hu⟩
        cases ds with
        | nil =>
          simp only [List.nil_append, List.cons.injEq] at he
          rw [he.1]
          exact hu
        | cons d ds2 =>
          simp only [List.cons_append, List.cons.injEq] at he
          exact absurd he.2.symm (List.append_ne_nil_of_right_ne_nil ds2 (by simp))
    | cons c2 cs2 =>
      show (c.isDigit && digitsThenUnit (c2 :: cs2)) = true ↔ _
      rw [Bool.and_eq_true, ih]
      constructor
      · rintro ⟨hd, ds, u, he, hds, hu⟩
        refine ⟨c :: ds, u, by rw [List.cons_append, he], ?_, hu⟩
        intro x hx
        rcases List.mem_cons.mp hx with rfl | hx2
        · exact hd
        · exact hds x hx2
      · rintro ⟨ds, u, he, hds, hu⟩
        cases ds with
        | nil =>
          simp only [List.nil_append, List.cons.injEq] at he
          exact absurd he.2 (by simp)
        | cons d ds2 =>
          simp only [List.cons_append, List.cons.injEq] at he
          obtain ⟨rfl, he2⟩ := he
          exact ⟨hds c (by simp), ds2, u, he2, fun x hx => hds x (by simp [hx]), hu⟩

theorem reDuration_iff (s : String) :
    reDuration s.toList = true ↔ specDuration s := by
  unfold specDuration
  cases hcs : s.toList with
  | nil =>
    constructor
    · intro h; exact Bool.noConfusion h
    · rintro ⟨ds, u, he, -, -⟩
      exact absurd he.symm (List.append_ne_nil_of_right_ne_nil ds (by simp))
  | cons c cs =>
    show (c.isDigit && digitsThenUnit cs) = true ↔ _
    rw [Bool.and_eq_true, digitsThenUnit_iff]
    constructor
    · rintro ⟨hd, ds, u, he, hds, hu⟩
      refine ⟨c :: ds, u, by simp [he], by simp, ?_, hu⟩
      intro x hx
      rcases List.mem_cons.mp hx with rfl | hx2
      · exact hd
      · exact hds x hx2
    · rintro ⟨ds, u, he, hne, hds, hu⟩
      cases ds with
      | nil => exact absurd rfl hne
      | cons d ds2 =>
        simp only [List.cons_append, List.cons.injEq] at he
        obtain ⟨rfl, he2⟩ := he
        exact ⟨hds c (by simp), ds2, u, he2, fun x hx => hds x (by simp [hx]), hu⟩

theorem reDate_iff (s : String) :
    reDate s.toList = true ↔ specDate s := by
  unfold specDate
  constructor
  · intro h
    rcases hcs : s.toList with _ | ⟨a, _ | ⟨b, _ | ⟨c, _ | ⟨d, _ | ⟨e5, _ | ⟨f,
      _ | ⟨g, _ | ⟨h8, _ | ⟨i, _ | ⟨j, rest⟩⟩⟩⟩⟩⟩⟩⟩⟩⟩ <;> rw [hcs] at h <;>
      try exact Bool.noConfusion h
    · cases rest with
      | nil =>
        simp only [reDate, Bool.and_eq_true, beq_iff_eq, and_assoc, and_true] at h
        obtain ⟨h1, h2, h3, h4, h5, h6, h7, h9, h10, h11⟩ := h
        subst h5 h9
        exact ⟨a, b, c, d, f, g, i, j, [], by simp,
          by simp [h1, h2, h3, h4, h6, h7, h10, h11], Or.inl rfl⟩
      | cons t ts =>
        simp only [reDate, Bool.and_eq_true, beq_iff_eq, and_assoc,
          Bool.not_eq_true'] at h
        obtain ⟨h1, h2, h3, h4, h5, h6, h7, h9, h10, h11, ht, hts, hall⟩ := h
        subst h5 h9 ht
        refine ⟨a, b, c, d, f, g, i, j, 'T' :: ts, by simp,
          by simp [h1, h2, h3, h4, h6, h7, h10, h11], Or.inr ⟨ts, rfl, ?_, ?_⟩⟩
        · intro e
          rw [e] at hts
          exact Bool.noConfusion hts
        · intro x hx
          have hxall := List.all_eq_true.mp hall x hx
          unfold timeOkChar at hxall
          have hx2 : x.isDigit = true ∨ x = ':' := by simpa using hxall
          exact hx2
  · rintro ⟨y1, y2, y3, y4, m1, m2, d1, d2, rest, he, hdig, hrest⟩
    rw [he]
    rcases hrest with rfl | ⟨ts, rfl, htne, hall⟩
    · simp [reDate, hdig y1 (by simp), hdig y2 (by simp), hdig y3 (by simp),
        hdig y4 (by simp), hdig m1 (by simp), hdig m2 (by simp),
        hdig d1 (by simp), hdig d2 (by simp)]
    · have hallb : ts.all timeOkChar = true := by
        rw [List.all_eq_true]
        intro x hx
        unfold timeOkChar
        rcases hall x hx with hd | hc
        · simp [hd]
        · simp [hc]
      have hne : ts.isEmpty = false := by
        cases ts with
        | nil => exact absurd rfl htne
        | cons t0 ts0 => rfl
      simp [reDate, hdig y1 (by simp), hdig y2 (by simp), hdig y3 (by simp),
        hdig y4 (by simp), hdig m1 (by simp), hdig m2 (by simp),
        hdig d1 (by simp), hdig d2 (by simp), hallb, hne]

/-- C6: the since-timestamp validator accepts exactly the strings made
of one or more digits followed by a unit letter s, m, h or d, or of a
four-two-two digit date optionally followed by T and a nonempty run of
digits and colons; it accepts the four sample values and rejects the
two malformed samples with the invalid-timestamp error. -/
theorem C6_timestamp_language :
    (∀ s : String, sanitizeTimestamp s = Except.ok s ↔ (specDuration s ∨ specDate s)) ∧
    sanitizeTimestamp "1h" = Except.ok "1h" ∧
    sanitizeTimestamp "30m" = Except.ok "30m" ∧
    sanitizeTimestamp "2024-01-01" = Except.ok "2024-01-01" ∧
    sanitizeTimestamp "2024-01-01T10:00:00" = Except.ok "2024-01-01T10:00:00" ∧
    sanitizeTimestamp "1 hour" =
      Except.error ("Invalid timestamp format: " ++ "1 hour") ∧
    sanitizeTimestamp "; rm -rf /" =
      Except.error ("Invalid timestamp format: " ++ "; rm -rf /") := by
  refine ⟨?_, rfl, rfl, rfl, rfl, rfl, rfl⟩
  intro s
  unfold sanitizeTimestamp
  cases hb : (reDuration s.toList || reDate s.toList) with
  | false =>
    rw [Bool.or_eq_false_iff] at hb
    simp only [Bool.false_eq_true, if_false]
    constructor
    · intro h
      exact Except.noConfusion h
    · rintro (hd | hd)
      · rw [← reDuration_iff] at hd
        rw [hb.1] at hd
        exact Bool.noConfusion hd
      · rw [← reDate_iff] at hd
        rw [hb.2] at hd
        exact Bool.noConfusion hd
  | true =>
    simp only [if_true]
    rw [Bool.or_eq_true] at hb
    constructor
    · intro _
      rcases hb with hd | hd
      · exact Or.inl ((reDuration_iff s).mp hd)
      · exact Or.inr ((reDate_iff s).mp hd)
    · intro _
      trivial

/-- Witness for C6 at a concrete input: the accepted sample 1h indeed
denotes one digit followed by a unit letter. -/
theorem C6_timestamp_language_witness : specDuration "1h" ∨ specDate "1h" :=
  (C6_timestamp_language.1 "1h").mp rfl

/-- Witness for C5 at a concrete input: a probe that exits 0 with
stdout that trims to ok yields true. -/
theorem C5_test_connection_witness :
    testConnection (fun _ => ExecBehavior.done " ok " "x" 0) "dokploy" = true :=
  (C5_test_connection (fun _ => ExecBehavior.done " ok " "x" 0) "dokploy").mpr
    ⟨" ok ", "x", 0, rfl, rfl, rfl⟩

/-- Witness for C7 at a concrete input: the metacharacter-free sublist
ab of the input a;b embeds into the sanitized output. -/
theorem C7_grep_strip_witness :
    ("ab".toList).Sublist ((sanitizeGrepPattern "a;b").toList) :=
  (C7_grep_strip "a;b").2.2.2 "ab".toList (by decide) (by decide)

/-- Witness for C10 at a concrete input: the character a survives in
the sanitized output of a; and is not a shell metacharacter. -/
theorem C10_grep_idempotent_witness : ¬(isShellMeta 'a' = true) :=
  (C10_grep_idempotent "a;").2 'a' (by decide)

theorem toolLogs_ok {remote : Remote} {args : Args} {host c sinceStr cmd : String}
    (hc : truthyStr args.container = true)
    (hsan : sanitizeName (args.container.getD "") = Except.ok c)
    (hsince : sinceArg args = Except.ok sinceStr)
    (hcmd : cmd = "docker logs " ++ c ++ " --tail " ++ args.tail.getD "100" ++ " " ++
      (if args.timestamps != some false then "-t" else "") ++ " " ++ sinceStr ++ " 2>&1") :
    toolLogs remote args host =
      (match sshExec remote cmd host (some 60000) with
       | .error e => (Except.error e, [⟨cmd, host, 60000⟩])
       | .ok r =>
         if r.exitCode != 0 && r.stdout == "" then
           (Except.error
             (if r.stderr != "" then r.stderr
              else if r.stdout != "" then r.stdout
              else "Failed to get container logs"), [⟨cmd, host, 60000⟩])
         else
           (Except.ok (if r.stdout != "" then r.stdout else r.stderr),
            [⟨cmd, host, 60000⟩])) := by
  subst hcmd
  unfold toolLogs
  rw [hc, hsan, hsince]
  rfl

theorem toolCompose_ok {remote : Remote} {args : Args} {host p sv cmd : String}
    (hp : truthyStr args.project = true)
    (hsan : sanitizeName (args.project.getD "") = Except.ok p)
    (hsv : serviceArg args = Except.ok sv)
    (hcmd : cmd = "docker compose -p " ++ p ++ " logs --tail " ++ args.tail.getD "100" ++
      " " ++ sv ++ " 2>&1") :
    toolCompose remote args host =
      (match sshExec remote cmd host (some 60000) with
       | .error e => (Except.error e, [⟨cmd, host, 60000⟩])
       | .ok r =>
         if r.exitCode != 0 && r.stdout == "" then
           (Except.error
             (if r.stderr != "" then r.stderr
              else if r.stdout != "" then r.stdout
              else "Failed to get compose logs"), [⟨cmd, host, 60000⟩])
         else
           (Except.ok (if r.stdout != "" then r.stdout else r.stderr),
            [⟨cmd, host, 60000⟩])) := by
  subst hcmd
  unfold toolCompose
  rw [hp, hsan, hsv]
  rfl

/-- Arguments of a well-formed get-container-logs call used in the
result-mapping claims. -/
def logsArgs : Args := { noArgs with container := some "app" }

/-- Arguments of a well-formed docker-compose-logs call used in the
result-mapping claims. -/
def composeArgs : Args := { noArgs with project := some "p1" }

/-- C4: for the two log tools, with the remote terminating normally,
the call fails exactly when the exit status is nonzero and the trimmed
stdout is empty (the error message falling back from stderr to a fixed
text); otherwise it succeeds with stdout when nonempty and stderr
otherwise — in particular a nonzero exit with nonempty stdout is a
success carrying the stdout. -/
theorem C4_log_result_mapping (out err : String) (code : Int) :
    (handleTool (fun _ => ExecBehavior.done out err code) "get-container-logs"
        { noArgs with container := some "app" } "dokploy").1 =
      (if code ≠ 0 ∧ jsTrim out = "" then
        Outcome.errorResult ("Error: " ++
          (if jsTrim err ≠ "" then jsTrim err else "Failed to get container logs"))
       else Outcome.success (if jsTrim out ≠ "" then jsTrim out else jsTrim err)) ∧
    (handleTool (fun _ => ExecBehavior.done out err code) "docker-compose-logs"
        { noArgs with project := some "p1" } "dokploy").1 =
      (if code ≠ 0 ∧ jsTrim out = "" then
        Outcome.errorResult ("Error: " ++
          (if jsTrim err ≠ "" then jsTrim err else "Failed to get compose logs"))
       else Outcome.success (if jsTrim out ≠ "" then jsTrim out else jsTrim err)) := by
  constructor
  · have hh : sanitizeName (resolveRawHost logsArgs "dokploy") =
        Except.ok "dokploy" := rfl
    have hc : truthyStr logsArgs.container = true := rfl
    have hsan : sanitizeName (logsArgs.container.getD "") = Except.ok "app" := rfl
    have hsince : sinceArg logsArgs = Except.ok "" := rfl
    rw [show ({ noArgs with container := some "app" } : Args) = logsArgs from rfl,
      handleTool_host_ok hh, runTool_logs, toolLogs_ok hc hsan hsince rfl, sshExec_eq]
    simp only [Option.getD]
    by_cases h1 : code = 0 <;> by_cases h2 : jsTrim out = "" <;>
      by_cases h3 : jsTrim err = "" <;> simp [h1, h2, h3]
  · have hh : sanitizeName (resolveRawHost composeArgs "dokploy") =
        Except.ok "dokploy" := rfl
    have hp : truthyStr composeArgs.project = true := rfl
    have hsan : sanitizeName (composeArgs.project.getD "") = Except.ok "p1" := rfl
    have hsv : serviceArg composeArgs = Except.ok "" := rfl
    rw [show ({ noArgs with project := some "p1" } : Args) = composeArgs from rfl,
      handleTool_host_ok hh, runTool_compose, toolCompose_ok hp hsan hsv rfl, sshExec_eq]
    simp only [Option.getD]
    by_cases h1 : code = 0 <;> by_cases h2 : jsTrim out = "" <;>
      by_cases h3 : jsTrim err = "" <;> simp [h1, h2, h3]

theorem handleTool_calls (remote : Remote) (name : String) (args : Args)
    (dh : String) :
    (handleTool remote name args dh).2 = [] ∨
    ∃ h, sanitizeName (resolveRawHost args dh) = Except.ok h ∧
      (handleTool remote name args dh).2 = (runTool remote name args h).2 := by
  unfold handleTool
  cases hh : sanitizeName (resolveRawHost args dh) with
  | error e => exact Or.inl rfl
  | ok h =>
    refine Or.inr ⟨h, rfl, ?_⟩
    show (match runTool remote name args h with
      | (Except.ok text, calls) => (Outcome.success text, calls)
      | (Except.error msg, calls) => (Outcome.errorResult ("Error: " ++ msg), calls)).2 =
      (runTool remote name args h).2
    cases hr : runTool remote name args h with
    | mk res calls =>
      cases res <;> rfl

theorem toolLogs_calls (remote : Remote) (args : Args) (host : String) :
    ∀ call ∈ (toolLogs remote args host).2, call.host = host ∧ call.timeoutMs = 60000 := by
  intro call hc
  unfold toolLogs at hc
  dsimp only at hc
  repeat' split at hc
  all_goals simp_all

theorem toolCompose_calls (remote : Remote) (args : Args) (host : String) :
    ∀ call ∈ (toolCompose remote args host).2, call.host = host ∧ call.timeoutMs = 60000 := by
  intro call hc
  unfold toolCompose at hc
  dsimp only at hc
  repeat' split at hc
  all_goals simp_all

theorem toolList_calls (remote : Remote) (args : Args) (host : String) :
    ∀ call ∈ (toolListContainers remote args host).2,
      call.host = host ∧ call.timeoutMs = 30000 := by
  intro call hc
  unfold toolListContainers at hc
  dsimp only at hc
  repeat' split at hc
  all_goals simp_all

theorem toolStats_calls (remote : Remote) (args : Args) (host : String) :
    ∀ call ∈ (toolStats remote args host).2,
      call.host = host ∧ call.timeoutMs = 30000 := by
  intro call hc
  unfold toolStats at hc
  dsimp only at hc
  repeat' split at hc
  all_goals simp_all

theorem toolInspect_calls (remote : Remote) (args : Args) (host : String) :
    ∀ call ∈ (toolInspect remote args host).2,
      call.host = host ∧ call.timeoutMs = 30000 := by
  intro call hc
  unfold toolInspect at hc
  dsimp only at hc
  repeat' split at hc
  all_goals simp_all

theorem toolTest_calls (remote : Remote) (args : Args) (host : String) :
    ∀ call ∈ (toolTestConnection remote host).2,
      call.host = host ∧ call.timeoutMs = 10000 := by
  intro call hc
  unfold toolTestConnection at hc
  simp at hc
  simp [hc]

/-- C9: the race outcome in which the timer fires first (the oracle
answers timedOut for the issued call, whose timeout is the
caller-supplied value with default 30000 ms) makes sshExec fail with
the timeout error and never return a successful result; omitting the
timeout is the same as passing 30000 ms; and the dispatcher passes
60000 ms for the two log-tailing tools, 30000 ms (the default) for the
other docker tools, and 10000 ms for the connection probe. -/
theorem C9_timeout_budget :
    (∀ (remote : Remote) (cmd host : String) (t : Option Nat),
      remote ⟨cmd, host, t.getD 30000⟩ = ExecBehavior.timedOut →
        sshExec remote cmd host t =
          Except.error ("SSH command timed out after " ++ toString (t.getD 30000) ++ "ms") ∧
        ∀ r, sshExec remote cmd host t ≠ Except.ok r) ∧
    (∀ (remote : Remote) (cmd host : String),
      sshExec remote cmd host none = sshExec remote cmd host (some 30000)) ∧
    (∀ (remote : Remote) (args : Args) (dh : String) (call : ExecCall),
      (call ∈ (handleTool remote "get-container-logs" args dh).2 → call.timeoutMs = 60000) ∧
      (call ∈ (handleTool remote "docker-compose-logs" args dh).2 → call.timeoutMs = 60000) ∧
      (call ∈ (handleTool remote "list-containers" args dh).2 → call.timeoutMs = 30000) ∧
      (call ∈ (handleTool remote "get-container-stats" args dh).2 → call.timeoutMs = 30000) ∧
      (call ∈ (handleTool remote "inspect-container" args dh).2 → call.timeoutMs = 30000) ∧
      (call ∈ (handleTool remote "test-connection" args dh).2 → call.timeoutMs = 10000)) := by
  refine ⟨?_, ?_, ?_⟩
  · intro remote cmd host t hb
    constructor
    · rw [sshExec_eq, hb]
    · intro r he
      rw [sshExec_eq, hb] at he
      exact Except.noConfusion he
  · intro remote cmd host
    rfl
  · intro remote args dh call
    have hgen : ∀ (name : String) (tl : Nat)
        (hrt : ∀ h c, c ∈ (runTool remote name args h).2 → c.timeoutMs = tl),
        call ∈ (handleTool remote name args dh).2 → call.timeoutMs = tl := by
      intro name tl hrt hm
      rcases handleTool_calls remote name args dh with he | ⟨h, -, he⟩
      · rw [he] at hm
        exact absurd hm (by simp)
      · rw [he] at hm
        exact hrt h call hm
    refine ⟨?_, ?_, ?_, ?_, ?_, ?_⟩
    · exact hgen "get-container-logs" 60000 (fun h c hm =>
        (toolLogs_calls remote args h c (by rwa [runTool_logs] at hm)).2)
    · exact hgen "docker-compose-logs" 60000 (fun h c hm =>
        (toolCompose_calls remote args h c (by rwa [runTool_compose] at hm)).2)
    · exact hgen "list-containers" 30000 (fun h c hm =>
        (toolList_calls remote args h c (by rwa [runTool_list] at hm)).2)
    · exact hgen "get-container-stats" 30000 (fun h c hm =>
        (toolStats_calls remote args h c (by rwa [runTool_stats] at hm)).2)
    · exact hgen "inspect-container" 30000 (fun h c hm =>
        (toolInspect_calls remote args h c (by rwa [runTool_inspect] at hm)).2)
    · exact hgen "test-connection" 10000 (fun h c hm =>
        (toolTest_calls remote args h c (by rwa [runTool_test] at hm)).2)

/-- Witness for C9 at concrete inputs: a fired timer on the default
budget produces the timeout error, and the single call issued by a
well-formed get-container-logs invocation carries the 60000 ms
budget. -/
theorem C9_timeout_budget_witness :
    sshExec (fun _ => ExecBehavior.timedOut) "docker ps" "dokploy" none =
      Except.error ("SSH command timed out after " ++ toString (30000 : Nat) ++ "ms") ∧
    (⟨"docker logs app --tail 100 -t  2>&1", "dokploy", 60000⟩ : ExecCall).timeoutMs =
      60000 := by
  constructor
  · exact ((C9_timeout_budget.1 (fun _ => ExecBehavior.timedOut)
      "docker ps" "dokploy" none) rfl).1
  · exact (C9_timeout_budget.2.2 (fun _ => ExecBehavior.done "x" "" 0) logsArgs "dokploy"
      ⟨"docker logs app --tail 100 -t  2>&1", "dokploy", 60000⟩).1 (by decide)

/-- C3 counterexample: a host argument with a space makes the host
sanitization — which runs before the try block — throw, and the handler
returns the escaped error, not an error-flagged Tool Result: the error
reaches the protocol layer unhandled. -/
theorem C3_counterexample_host_uncaught :
    handleTool (fun _ => ExecBehavior.done "" "" 0) "test-connection"
        { noArgs with host := some "bad host" } "dokploy" =
      (Outcome.uncaught "Invalid characters in input: bad host", []) ∧
    Outcome.uncaught "Invalid characters in input: bad host" ≠
      Outcome.errorResult "Error: Invalid characters in input: bad host" := by
  constructor
  · rfl
  · intro h
    exact Outcome.noConfusion h

/-- C3 amended: once the host argument has passed sanitization, every
error raised inside the per-tool switch — argument validation,
sanitization of the other arguments, execution, unknown tool names — is
caught and becomes a Tool Result with the error flag and a message
prefixed with Error:, and the handler never lets an error escape; only
the host sanitization, which runs before the try block, escapes. -/
theorem C3_amended_catch_inside_try (remote : Remote) (name : String) (args : Args)
    (dh h : String) (hh : sanitizeName (resolveRawHost args dh) = Except.ok h) :
    (∃ t, (handleTool remote name args dh).1 = Outcome.success t) ∨
    (∃ m, (handleTool remote name args dh).1 = Outcome.errorResult ("Error: " ++ m)) := by
  rw [handleTool_host_ok hh]
  cases hr : runTool remote name args h with
  | mk res calls =>
    cases res with
    | ok t => exact Or.inl ⟨t, rfl⟩
    | error m => exact Or.inr ⟨m, rfl⟩

/-- Witness for the amended C3 at a concrete input: with a well-formed
default host, even an unknown tool name yields a caught, error-flagged
result rather than an escaped error. -/
theorem C3_amended_catch_inside_try_witness :
    (∃ t, (handleTool (fun _ => ExecBehavior.done "" "" 0) "no-such-tool" noArgs
      "dokploy").1 = Outcome.success t) ∨
    (∃ m, (handleTool (fun _ => ExecBehavior.done "" "" 0) "no-such-tool" noArgs
      "dokploy").1 = Outcome.errorResult ("Error: " ++ m)) :=
  C3_amended_catch_inside_try (fun _ => ExecBehavior.done "" "" 0) "no-such-tool"
    noArgs "dokploy" "dokploy" rfl

theorem sinceArg_ok {args : Args} {s : String} (h : sinceArg args = Except.ok s) :
    (truthyStr args.since = false ∧ s = "") ∨
    ∃ ts, sanitizeTimestamp (args.since.getD "") = Except.ok ts ∧ s = "--since " ++ ts := by
  unfold sinceArg at h
  by_cases ht : truthyStr args.since = true
  · simp only [ht, if_true] at h
    cases hst : sanitizeTimestamp (args.since.getD "") with
    | error e =>
      rw [hst] at h
      exact Except.noConfusion h
    | ok t =>
      rw [hst] at h
      exact Or.inr ⟨t, rfl, (Except.ok.inj h).symm⟩
  · have hf : truthyStr args.since = false := by simpa using ht
    simp only [hf, Bool.false_eq_true, if_false] at h
    exact Or.inl ⟨hf, (Except.ok.inj h).symm⟩

theorem statsContainer_ok {args : Args} {s : String}
    (h : statsContainer args = Except.ok s) :
    (truthyStr args.container = false ∧ s = "") ∨
    sanitizeName (args.container.getD "") = Except.ok s := by
  unfold statsContainer at h
  by_cases ht : truthyStr args.container = true
  · simp only [ht, if_true] at h
    exact Or.inr h
  · have hf : truthyStr args.container = false := by simpa using ht
    simp only [hf, Bool.false_eq_true, if_false] at h
    exact Or.inl ⟨hf, (Except.ok.inj h).symm⟩

theorem serviceArg_ok {args : Args} {s : String}
    (h : serviceArg args = Except.ok s) :
    (truthyStr args.service = false ∧ s = "") ∨
    sanitizeName (args.service.getD "") = Except.ok s := by
  unfold serviceArg at h
  by_cases ht : truthyStr args.service = true
  · simp only [ht, if_true] at h
    exact Or.inr h
  · have hf : truthyStr args.service = false := by simpa using ht
    simp only [hf, Bool.false_eq_true, if_false] at h
    exact Or.inl ⟨hf, (Except.ok.inj h).symm⟩

theorem toolLogs_call_shape (remote : Remote) (args : Args) (host : String) :
    ∀ call ∈ (toolLogs remote args host).2,
      ∃ c sinceStr,
        sanitizeName (args.container.getD "") = Except.ok c ∧
        sinceArg args = Except.ok sinceStr ∧
        call = ⟨"docker logs " ++ c ++ " --tail " ++ args.tail.getD "100" ++ " " ++
          (if args.timestamps != some false then "-t" else "") ++ " " ++ sinceStr ++
          " 2>&1", host, 60000⟩ := by
  intro call hc
  unfold toolLogs at hc
  dsimp only at hc
  by_cases h1 : truthyStr args.container = true
  · rw [h1] at hc
    simp only [Bool.not_true, Bool.false_eq_true, if_false] at hc
    cases hs : sanitizeName (args.container.getD "") with
    | error e =>
      rw [hs] at hc
      simp at hc
    | ok c =>
      rw [hs] at hc
      dsimp only at hc
      cases hsi : sinceArg args with
      | error e =>
        rw [hsi] at hc
        simp at hc
      | ok sinceStr =>
        rw [hsi] at hc
        dsimp only at hc
        refine ⟨c, sinceStr, rfl, rfl, ?_⟩
        repeat' split at hc
        all_goals simp_all
  · have h1f : truthyStr args.container = false := by simpa using h1
    rw [h1f] at hc
    simp at hc

theorem toolList_call_shape (remote : Remote) (args : Args) (host : String) :
    ∀ call ∈ (toolListContainers remote args host).2,
      call = ⟨(if truthyStr args.filter then
          "docker ps " ++ (if truthyBool args.all then "-a" else "") ++ " " ++ psFormat ++
            " | grep -E \"NAMES|" ++ sanitizeGrepPattern (args.filter.getD "") ++ "\""
        else "docker ps " ++ (if truthyBool args.all then "-a" else "") ++ " " ++
          psFormat), host, 30000⟩ := by
  intro call hc
  unfold toolListContainers at hc
  dsimp only at hc
  repeat' split at hc
  all_goals simp_all

theorem toolStats_call_shape (remote : Remote) (args : Args) (host : String) :
    ∀ call ∈ (toolStats remote args host).2,
      ∃ c, statsContainer args = Except.ok c ∧
        call = ⟨"docker stats --no-stream " ++ statsFormat ++ " " ++ c, host, 30000⟩ := by
  intro call hc
  unfold toolStats at hc
  cases hs : statsContainer args with
  | error e =>
    rw [hs] at hc
    simp at hc
  | ok c =>
    rw [hs] at hc
    dsimp only at hc
    refine ⟨c, rfl, ?_⟩
    repeat' split at hc
    all_goals simp_all

theorem toolInspect_call_shape (remote : Remote) (args : Args) (host : String) :
    ∀ call ∈ (toolInspect remote args host).2,
      ∃ c, sanitizeName (args.container.getD "") = Except.ok c ∧
        call = ⟨"docker inspect " ++ c ++ " --format " ++ inspectFormat, host, 30000⟩ := by
  intro call hc
  unfold toolInspect at hc
  dsimp only at hc
  by_cases h1 : truthyStr args.container = true
  · rw [h1] at hc
    simp only [Bool.not_true, Bool.false_eq_true, if_false] at hc
    cases hs : sanitizeName (args.container.getD "") with
    | error e =>
      rw [hs] at hc
      simp at hc
    | ok c =>
      rw [hs] at hc
      dsimp only at hc
      refine ⟨c, rfl, ?_⟩
      repeat' split at hc
      all_goals simp_all
  · have h1f : truthyStr args.container = false := by simpa using h1
    rw [h1f] at hc
    simp at hc

theorem toolCompose_call_shape (remote : Remote) (args : Args) (host : String) :
    ∀ call ∈ (toolCompose remote args host).2,
      ∃ p sv,
        sanitizeName (args.project.getD "") = Except.ok p ∧
        serviceArg args = Except.ok sv ∧
        call = ⟨"docker compose -p " ++ p ++ " logs --tail " ++ args.tail.getD "100" ++
          " " ++ sv ++ " 2>&1", host, 60000⟩ := by
  intro call hc
  unfold toolCompose at hc
  dsimp only at hc
  by_cases h1 : truthyStr args.project = true
  · rw [h1] at hc
    simp only [Bool.not_true, Bool.false_eq_true, if_false] at hc
    cases hs : sanitizeName (args.project.getD "") with
    | error e =>
      rw [hs] at hc
      simp at hc
    | ok p =>
      rw [hs] at hc
      dsimp only at hc
      cases hsv : serviceArg args with
      | error e =>
        rw [hsv] at hc
        simp at hc
      | ok sv =>
        rw [hsv] at hc
        dsimp only at hc
        refine ⟨p, sv, rfl, rfl, ?_⟩
        repeat' split at hc
        all_goals simp_all
  · have h1f : truthyStr args.project = false := by simpa using h1
    rw [h1f] at hc
    simp at hc

theorem toolTest_call_shape (remote : Remote) (host : String) :
    ∀ call ∈ (toolTestConnection remote host).2, call = ⟨echoOkCmd, host, 10000⟩ := by
  intro call hc
  unfold toolTestConnection at hc
  simp at hc
  exact hc

/-- C1 counterexample: a tail argument carrying a shell metacharacter
is interpolated verbatim into the command handed to the Remote
Executor, although every sanitizer of the program rejects or alters
that value — the tail interpolation is unsanitized. -/
theorem C1_counterexample_tail_unsanitized :
    (handleTool (fun _ => ExecBehavior.done "log" "" 0) "get-container-logs"
        { noArgs with container := some "app", tail := some "100; echo pwned" }
        "dokploy").2 =
      [⟨"docker logs app --tail 100; echo pwned -t  2>&1", "dokploy", 60000⟩] ∧
    sanitizeName "100; echo pwned" =
      Except.error ("Invalid characters in input: 100; echo pwned") ∧
    sanitizeTimestamp "100; echo pwned" =
      Except.error ("Invalid timestamp format: 100; echo pwned") ∧
    sanitizeGrepPattern "100; echo pwned" ≠ "100; echo pwned" := by
  refine ⟨rfl, rfl, rfl, ?_⟩
  decide

/-- C1 amended: for every tool call that reaches the Remote Executor,
every caller-supplied string value interpolated into the assembled
command — container, project, service, host, filter, and since — has
first been passed through its sanitizer; the tail argument alone is
interpolated as given, without sanitization.  The issued command is
exactly the template over the sanitizer outputs and the raw tail
text. -/
theorem C1_amended_sanitized_interpolation (remote : Remote) (args : Args)
    (dh : String) :
    (∀ call ∈ (handleTool remote "get-container-logs" args dh).2,
      sanitizeName (resolveRawHost args dh) = Except.ok call.host ∧
      ∃ c sinceStr,
        sanitizeName (args.container.getD "") = Except.ok c ∧
        ((truthyStr args.since = false ∧ sinceStr = "") ∨
         ∃ ts, sanitizeTimestamp (args.since.getD "") = Except.ok ts ∧
           sinceStr = "--since " ++ ts) ∧
        call.command = "docker logs " ++ c ++ " --tail " ++ args.tail.getD "100" ++
          " " ++ (if args.timestamps != some false then "-t" else "") ++ " " ++
          sinceStr ++ " 2>&1") ∧
    (∀ call ∈ (handleTool remote "list-containers" args dh).2,
      sanitizeName (resolveRawHost args dh) = Except.ok call.host ∧
      call.command = (if truthyStr args.filter then
          "docker ps " ++ (if truthyBool args.all then "-a" else "") ++ " " ++ psFormat ++
            " | grep -E \"NAMES|" ++ sanitizeGrepPattern (args.filter.getD "") ++ "\""
        else "docker ps " ++ (if truthyBool args.all then "-a" else "") ++ " " ++
          psFormat)) ∧
    (∀ call ∈ (handleTool remote "get-container-stats" args dh).2,
      sanitizeName (resolveRawHost args dh) = Except.ok call.host ∧
      ∃ c, ((truthyStr args.container = false ∧ c = "") ∨
          sanitizeName (args.container.getD "") = Except.ok c) ∧
        call.command = "docker stats --no-stream " ++ statsFormat ++ " " ++ c) ∧
    (∀ call ∈ (handleTool remote "inspect-container" args dh).2,
      sanitizeName (resolveRawHost args dh) = Except.ok call.host ∧
      ∃ c, sanitizeName (args.container.getD "") = Except.ok c ∧
        call.command = "docker inspect " ++ c ++ " --format " ++ inspectFormat) ∧
    (∀ call ∈ (handleTool remote "docker-compose-logs" args dh).2,
      sanitizeName (resolveRawHost args dh) = Except.ok call.host ∧
      ∃ p sv,
        sanitizeName (args.project.getD "") = Except.ok p ∧
        ((truthyStr args.service = false ∧ sv = "") ∨
         sanitizeName (args.service.getD "") = Except.ok sv) ∧
        call.command = "docker compose -p " ++ p ++ " logs --tail " ++
          args.tail.getD "100" ++ " " ++ sv ++ " 2>&1") ∧
    (∀ call ∈ (handleTool remote "test-connection" args dh).2,
      sanitizeName (resolveRawHost args dh) = Except.ok call.host ∧
      call.command = echoOkCmd) := by
  refine ⟨?_, ?_, ?_, ?_, ?_, ?_⟩
  · intro call hc
    rcases handleTool_calls remote "get-container-logs" args dh with he | ⟨h, hh, he⟩
    · rw [he] at hc
      exact absurd hc (by simp)
    · rw [he, runTool_logs] at hc
      obtain ⟨c, sinceStr, hs, hsi, rfl⟩ := toolLogs_call_shape remote args h call hc
      exact ⟨hh, c, sinceStr, hs, sinceArg_ok hsi, rfl⟩
  · intro call hc
    rcases handleTool_calls remote "list-containers" args dh with he | ⟨h, hh, he⟩
    · rw [he] at hc
      exact absurd hc (by simp)
    · rw [he, runTool_list] at hc
      obtain rfl := toolList_call_shape remote args h call hc
      exact ⟨hh, rfl⟩
  · intro call hc
    rcases handleTool_calls remote "get-container-stats" args dh with he | ⟨h, hh, he⟩
    · rw [he] at hc
      exact absurd hc (by simp)
    · rw [he, runTool_stats] at hc
      obtain ⟨c, hs, rfl⟩ := toolStats_call_shape remote args h call hc
      exact ⟨hh, c, statsContainer_ok hs, rfl⟩
  · intro call hc
    rcases handleTool_calls remote "inspect-container" args dh with he | ⟨h, hh, he⟩
    · rw [he] at hc
      exact absurd hc (by simp)
    · rw [he, runTool_inspect] at hc
      obtain ⟨c, hs, rfl⟩ := toolInspect_call_shape remote args h call hc
      exact ⟨hh, c, hs, rfl⟩
  · intro call hc
    rcases handleTool_calls remote "docker-compose-logs" args dh with he | ⟨h, hh, he⟩
    · rw [he] at hc
      exact absurd hc (by simp)
    · rw [he, runTool_compose] at hc
      obtain ⟨p, sv, hp, hsv, rfl⟩ := toolCompose_call_shape remote args h call hc
      exact ⟨hh, p, sv, hp, serviceArg_ok hsv, rfl⟩
  · intro call hc
    rcases handleTool_calls remote "test-connection" args dh with he | ⟨h, hh, he⟩
    · rw [he] at hc
      exact absurd hc (by simp)
    · rw [he, runTool_test] at hc
      obtain rfl := toolTest_call_shape remote h call hc
      exact ⟨hh, rfl⟩

/-- Witness for the amended C1 at a concrete input: the single call of
a well-formed get-container-logs invocation has a sanitizer-accepted
host and container and the template command. -/
theorem C1_amended_sanitized_interpolation_witness :
    sanitizeName (resolveRawHost logsArgs "dokploy") =
      Except.ok (⟨"docker logs app --tail 100 -t  2>&1", "dokploy", 60000⟩ :
        ExecCall).host ∧
    ∃ c sinceStr,
      sanitizeName (logsArgs.container.getD "") = Except.ok c ∧
      ((truthyStr logsArgs.since = false ∧ sinceStr = "") ∨
       ∃ ts, sanitizeTimestamp (logsArgs.since.getD "") = Except.ok ts ∧
         sinceStr = "--since " ++ ts) ∧
      (⟨"docker logs app --tail 100 -t  2>&1", "dokploy", 60000⟩ :
        ExecCall).command = "docker logs " ++ c ++ " --tail " ++
          logsArgs.tail.getD "100" ++ " " ++
          (if logsArgs.timestamps != some false then "-t" else "") ++ " " ++
          sinceStr ++ " 2>&1" :=
  (C1_amended_sanitized_interpolation (fun _ => ExecBehavior.done "log" "" 0)
      logsArgs "dokploy").1
    ⟨"docker logs app --tail 100 -t  2>&1", "dokploy", 60000⟩ (by decide)

/-- The seven summary keys in the order the source lists them. -/
def sevenNames : List String :=
  ["Name", "State", "Image", "Created", "Ports", "Env", "Mounts"]

/-- The value drawn from the parsed object for one summary key. -/
def summarySource (v : Json) (k : String) : Option Json :=
  if k == "Image" then jsGetVia v "Config" "Image"
  else if k == "Ports" then jsGetVia v "NetworkSettings" "Ports"
  else if k == "Env" then jsGetVia v "Config" "Env"
  else jsGet v k

theorem summaryEntries_eq (v : Json) :
    summaryEntries v = sevenNames.map (fun k => (k, summarySource v k)) := rfl

theorem filterMap_keys (entries : List (String × Option Json)) :
    (entries.filterMap (fun p => p.2.map (fun v => (p.1, v)))).map Prod.fst =
      (entries.filter (fun p => p.2.isSome)).map Prod.fst := by
  induction entries with
  | nil => rfl
  | cons e es ih =>
    cases e with
    | mk k o =>
      cases o with
      | none => simpa using ih
      | some v => simpa using ih

theorem keys_filter (names : List String) (g : String → Option Json) :
    ((names.map (fun k => (k, g k))).filter (fun p => p.2.isSome)).map Prod.fst =
      names.filter (fun k => (g k).isSome) := by
  induction names with
  | nil => rfl
  | cons n ns ih =>
    by_cases h : (g n).isSome <;> simp [h, ih]

/-- C8 counterexample: the stdout 42 parses as JSON (a number), yet the
rendered result is the empty object — it contains none of the seven
fields, because property access on a non-object yields undefined and
JSON.stringify omits undefined-valued keys. -/
theorem C8_counterexample_nonobject_json :
    jsonParse "42" = some (Json.jnum "42") ∧
    renderInspect "42" = String.mk [chLBrace, chRBrace] ∧
    (handleTool (fun _ => ExecBehavior.done "42" "" 0) "inspect-container"
        { noArgs with container := some "app" } "dokploy").1 =
      Outcome.success (String.mk [chLBrace, chRBrace]) := by
  have hr : renderInspect "42" = String.mk [chLBrace, chRBrace] := by
    unfold renderInspect
    rw [show jsonParse "42" = some (Json.jnum "42") from rfl]
    dsimp only
    rw [show summaryFields (Json.jnum "42") = some [] from rfl]
    simp [stringifyVal]
  refine ⟨rfl, hr, ?_⟩
  have h1 : (handleTool (fun _ => ExecBehavior.done "42" "" 0) "inspect-container"
      { noArgs with container := some "app" } "dokploy").1 =
      Outcome.success (renderInspect (jsTrim "42")) := rfl
  rw [h1, show jsTrim "42" = "42" from rfl, hr]

/-- C8 amended: when the remote output fails to parse as JSON, or
parses to null (on which every property access throws, caught by the
same try), the raw stdout text is returned unchanged with no error;
when it parses to any non-null value, the result is the stringified
summary containing exactly those of the seven fields whose source path
is defined on the parsed value, in the fixed order — on an object with
all seven paths present that is exactly the seven fields, on other
values possibly fewer.  A successful inspect-container invocation
returns this rendering of the trimmed stdout. -/
theorem C8_amended_inspect_summary :
    (∀ raw : String, jsonParse raw = none → renderInspect raw = raw) ∧
    (∀ raw : String, jsonParse raw = some Json.jnull → renderInspect raw = raw) ∧
    (∀ (raw : String) (v : Json), jsonParse raw = some v → v ≠ Json.jnull →
      ∃ fs, summaryFields v = some fs ∧
        renderInspect raw = stringifyVal 0 (Json.jobj fs) ∧
        fs.map Prod.fst =
          sevenNames.filter (fun k => (summarySource v k).isSome)) ∧
    (∀ out err : String,
      (handleTool (fun _ => ExecBehavior.done out err 0) "inspect-container"
          { noArgs with container := some "app" } "dokploy").1 =
        Outcome.success (renderInspect (jsTrim out))) := by
  refine ⟨?_, ?_, ?_, ?_⟩
  · intro raw hp
    unfold renderInspect
    rw [hp]
  · intro raw hp
    unfold renderInspect
    rw [hp]
    rfl
  · intro raw v hp hne
    have hsf : summaryFields v =
        some ((summaryEntries v).filterMap (fun p => p.2.map (fun w => (p.1, w)))) := by
      cases v with
      | jnull => exact absurd rfl hne
      | jbool b => rfl
      | jnum lx => rfl
      | jstr s => rfl
      | jarr xs => rfl
      | jobj fields => rfl
    refine ⟨_, hsf, ?_, ?_⟩
    · unfold renderInspect
      rw [hp]
      dsimp only
      rw [hsf]
    · rw [filterMap_keys, summaryEntries_eq, keys_filter]
  · intro out err
    rfl

/-- Witness for the amended C8 at concrete inputs: non-JSON output is
returned verbatim, and output parsing to a boolean yields a summary
with an empty key list. -/
theorem C8_amended_inspect_summary_witness :
    renderInspect "not json" = "not json" ∧
    ∃ fs, summaryFields (Json.jbool true) = some fs ∧
      renderInspect "true" = stringifyVal 0 (Json.jobj fs) ∧
      fs.map Prod.fst =
        sevenNames.filter (fun k => (summarySource (Json.jbool true) k).isSome) :=
  ⟨C8_amended_inspect_summary.1 "not json" rfl,
   C8_amended_inspect_summary.2.2.1 "true" (Json.jbool true) rfl
     (fun h => Json.noConfusion h)⟩

end Dokploy
